import Mathlib

/-!
Verification development for the Telegram request-accept bot
(`auro_request_accept.py`).  The definitions below are a shallow embedding
of the bot's data model and handlers: JSON stores become Lean lists of
records, the per-recipient delivery outcome and the externally mutated
cancellation flag become explicit parameters, and every platform call is
recorded as an event.
-/

/-- Substring test, modelling Python's `needle in haystack` on strings. -/
def containsSub (s pat : String) : Bool :=
  s.data.tails.any (fun t => pat.data.isPrefixOf t)

/-- Python's `str.lower()`, character by character.  `Char.toLower` maps
the ASCII uppercase range; the classifier keywords are all ASCII. -/
def lowerStr (s : String) : String :=
  ⟨s.data.map Char.toLower⟩

/-- Failure categories used by the broadcast loop's `except` branch. -/
inductive FailureClass
  | blockedAcc
  | deletedAcc
  | otherFail
deriving DecidableEq

/-- The delivery-failure classifier of `handle_broadcast_message`
(lines 264-271): `error_msg = str(e).lower()`, then substring checks in
order `blocked`, `deleted` / `not found`, catch-all. -/
def classify_error (e : String) : FailureClass :=
  let m := lowerStr e
  if containsSub m "blocked" then .blockedAcc
  else if containsSub m "deleted" || containsSub m "not found" then .deletedAcc
  else .otherFail

/-- Outcome of one `send_message` / `send_photo` / `send_video` call. -/
inductive SendResult
  | ok
  | err (description : String)
deriving DecidableEq

/-- The `broadcast_stats` dictionary stored in `context.user_data`. -/
structure BStats where
  total_users : Nat
  successful : Nat
  blocked : Nat
  deleted : Nat
  unsuccessful : Nat
deriving DecidableEq

/-- One iteration's counter update: `successful += 1` on success, else the
classifier picks the counter to bump (lines 262-271). -/
def bumpCounts (c : BStats) : SendResult → BStats
  | .ok => { c with successful := c.successful + 1 }
  | .err e =>
    match classify_error e with
    | .blockedAcc => { c with blocked := c.blocked + 1 }
    | .deletedAcc => { c with deleted := c.deleted + 1 }
    | .otherFail => { c with unsuccessful := c.unsuccessful + 1 }

/-- Sum of the four outcome counters. -/
def sum4 (c : BStats) : Nat :=
  c.successful + c.blocked + c.deleted + c.unsuccessful

/-! ### IEEE-754 binary64 model for the progress percentage

The progress message computes `int((i + 1) / total_users * 100)` in Python,
i.e. two correctly rounded binary64 operations followed by truncation
toward zero.  Every value reached is nonnegative and far below the
overflow/subnormal range, so a double result is the exact real result
rounded to 53 significant bits, ties to even.  The model works on exact
fractions `a / b` of naturals and represents a double as a dyadic
`m / 2 ^ k`. -/

/-- `⌊log₂ n⌋` (and `0` for `n ≤ 1`), with explicit structural fuel so that
the kernel can evaluate it. -/
def log2fuel : Nat → Nat → Nat
  | 0, _ => 0
  | fuel + 1, n => if n ≥ 2 then log2fuel fuel (n / 2) + 1 else 0

/-- `a / b < 2 ^ e`, for naturals `a`, `b > 0` and a signed exponent. -/
def ltPow2 (a b : Nat) (e : Int) : Bool :=
  if 0 ≤ e then a < b * 2 ^ e.toNat else a * 2 ^ (-e).toNat < b

/-- `⌊log₂ (a / b)⌋` for positive naturals: first guess from the bit
lengths, then adjust by one comparison in each direction. -/
def ratLog2 (a b : Nat) : Int :=
  let e0 : Int := (log2fuel a a : Int) - (log2fuel b b : Int)
  if ltPow2 a b e0 then e0 - 1
  else if ltPow2 a b (e0 + 1) then e0
  else e0 + 1

/-- Round `n / d` (with `d > 0`) to the nearest integer, ties to even. -/
def roundHalfEvenND (n d : Nat) : Nat :=
  let q := n / d
  let r := n % d
  if 2 * r < d then q
  else if d < 2 * r then q + 1
  else if q % 2 == 0 then q else q + 1

/-- Round the positive fraction `a / b` to the nearest binary64 value,
returned as a dyadic pair `(m, k)` standing for `m / 2 ^ k`: the fraction
is scaled so that its significand occupies 53 bits and rounded half to
even. -/
def roundDoubleND (a b : Nat) : Nat × Nat :=
  if a == 0 then (0, 0)
  else
    let e := ratLog2 a b
    let k := ((52 : Int) - e).toNat
    (roundHalfEvenND (a * 2 ^ k) b, k)

/-- The percentage displayed by a progress edit:
`int((i + 1) / total_users * 100)` under IEEE binary64 semantics, with
`p = i + 1`.  The division and the multiplication by `100` each round to
the nearest double; `int` truncates (= floor, the value is nonnegative). -/
def pyPercent (p total : Nat) : Nat :=
  if total == 0 then 0
  else
    let d1 := roundDoubleND p total
    let d2 := roundDoubleND (d1.1 * 100) (2 ^ d1.2)
    d2.1 / 2 ^ d2.2

/-! ### Data model: the JSON stores and the per-operator `user_data` dict -/

/-- One record of `users.json` (see `save_user`, lines 71-78). -/
structure UserRec where
  user_id : Int
  username : String
  first_name : String
  last_name : String
  join_date : String
  approved_channels : List Int
deriving DecidableEq

/-- One record of `channels.json` (see `save_user`, lines 86-91). -/
structure ChannelRec where
  channel_id : Int
  title : String
  username : String
  join_date : String
deriving DecidableEq

/-- One record of `broadcasts.json` (see lines 311-320). -/
structure BroadcastRec where
  admin_id : Int
  message_type : String
  sent_date : String
  total_users : Nat
  successful : Nat
  blocked : Nat
  deleted : Nat
  unsuccessful : Nat
deriving DecidableEq

/-- The per-operator `context.user_data` dictionary.  Each field is an
`Option` because the Python code distinguishes key presence
(`'k' in context.user_data`, `del context.user_data['k']`) from the
stored value. -/
structure UserData where
  awaiting_broadcast : Option Bool
  broadcast_in_progress : Option Bool
  broadcast_cancelled : Option Bool
  broadcast_stats : Option BStats
deriving DecidableEq

/-- The fixed authorized-operator allow-list (line 45). -/
def ADMIN_IDS : List Int := [1524473035]

/-- Kind of the captured broadcast message; the handler is registered for
exactly text, photo and video updates. -/
inductive MsgContent
  | text
  | photo
  | video
deriving DecidableEq

/-- The `message_type` string stored in a broadcast record
(lines 305-309). -/
def message_type : MsgContent → String
  | .text => "text"
  | .photo => "photo"
  | .video => "video"

/-- Observable platform calls made by the handlers. -/
inductive RunEvent
  | replyText (text : String)
  | progressInit (total : Nat) (cancelBtn : Bool)
  | progressEdit (shown : Nat) (total : Nat) (percent : Nat)
      (succ : Nat) (failed : Nat) (cancelBtn : Bool)
  | finalEdit (total : Nat) (cancelBtn : Bool)
  | statsReply (s : BStats)
  | editedMessage (text : String)
deriving DecidableEq

/-! ### The broadcast delivery loop (lines 233-296)

The loop iterates the user snapshot with index `i`.  The cancellation flag
is written concurrently by other handlers (the cancel command and the
cancel button), so its reads are modelled by `cancel : Nat → Bool`:
`cancel i` is the value `context.user_data.get('broadcast_cancelled', False)`
observed by the check preceding recipient `i`; `cancel n` (after all `n`
loop checks) is the value observed by the post-loop read on line 302.
The per-recipient delivery outcome is the environment's choice and is
supplied as a `SendResult` per index. -/

/-- Result of the delivery loop: final counters, number of recipients
processed, the last value written to `user_data['broadcast_stats']`,
whether the loop exited via `break`, and the progress-edit attempts. -/
structure LoopResult where
  counts : BStats
  processed : Nat
  stats_written : BStats
  broke : Bool
  events : List RunEvent
deriving DecidableEq

/-- The `for i, user in enumerate(users)` loop body.  `total` is
`len(users)` of the full snapshot, `i` the current index, `outs` the
remaining delivery outcomes, `counts` the accumulated counters and
`statsw` the last value written to `broadcast_stats`. -/
def broadcast_loop (cancel : Nat → Bool) (total : Nat) :
    Nat → List SendResult → BStats → BStats → LoopResult
  | i, [], counts, statsw => ⟨counts, i, statsw, false, []⟩
  | i, o :: rest, counts, statsw =>
    if cancel i then ⟨counts, i, statsw, true, []⟩
    else
      let counts' := bumpCounts counts o
      if i % 10 == 0 || i + 1 == total then
        let ev := RunEvent.progressEdit (i + 1) total (pyPercent (i + 1) total)
          counts'.successful (counts'.blocked + counts'.deleted + counts'.unsuccessful) true
        let r := broadcast_loop cancel total (i + 1) rest counts' counts'
        { r with events := ev :: r.events }
      else
        broadcast_loop cancel total (i + 1) rest counts' statsw

/-- Everything `handle_broadcast_message` leaves behind. -/
structure HandlerResult where
  ud : UserData
  broadcasts : List BroadcastRec
  events : List RunEvent
  ran : Bool
  loop : LoopResult
  cancelledAtEnd : Bool
deriving DecidableEq

/-- An empty loop result for the branches that never reach the loop. -/
def emptyLoop : LoopResult := ⟨⟨0, 0, 0, 0, 0⟩, 0, ⟨0, 0, 0, 0, 0⟩, false, []⟩

/-- Lines 192-335 of `handle_broadcast_message`: everything after the
awaiting-state and allow-list guards.  Clears the preparation state, rejects
an empty snapshot, initializes the stats and session flags (the cancelled
flag is overwritten with `False` on line 217), runs the delivery loop,
persists a run record if the final flag read is false, always replaces the
progress message with the terminal text, and publishes the stats summary. -/
def run_broadcast (ud : UserData) (sender_id : Int) (content : MsgContent)
    (users : List UserRec) (send : Nat → SendResult) (extCancel : Nat → Bool)
    (broadcasts : List BroadcastRec) (now : String) : HandlerResult :=
  let ud1 := { ud with awaiting_broadcast := none }
  if users.isEmpty then
    ⟨ud1, broadcasts, [.replyText "No users in database to broadcast to."],
      false, emptyLoop, ud1.broadcast_cancelled.getD false⟩
  else
    let total := users.length
    let initStats : BStats := ⟨total, 0, 0, 0, 0⟩
    let ud2 := { ud1 with broadcast_stats := some initStats,
                          broadcast_in_progress := some true,
                          broadcast_cancelled := some false }
    let outs := (List.range total).map send
    let r := broadcast_loop extCancel total 0 outs initStats initStats
    let cancelled := r.broke || extCancel r.processed
    let ud3 := { ud2 with broadcast_in_progress := none,
                          broadcast_stats := some r.stats_written,
                          broadcast_cancelled := some cancelled }
    let broadcasts' :=
      if cancelled then broadcasts
      else broadcasts ++ [⟨sender_id, message_type content, now, total,
        r.counts.successful, r.counts.blocked, r.counts.deleted,
        r.counts.unsuccessful⟩]
    ⟨ud3, broadcasts',
      RunEvent.progressInit total true :: r.events
        ++ [RunEvent.finalEdit total false, RunEvent.statsReply r.stats_written],
      true, r, cancelled⟩

/-- Shallow embedding of `handle_broadcast_message` (lines 184-335).
`send i` is the outcome of the delivery attempt to the `i`-th user of the
snapshot; `extCancel` is the cancellation-flag read schedule (the flag is
set to `False` on line 217 and only ever set to `True` afterwards, so a
`break` at check `i` means every later read is also true). -/
def handle_broadcast_message (ud : UserData) (sender_id : Int)
    (content : MsgContent) (users : List UserRec) (send : Nat → SendResult)
    (extCancel : Nat → Bool) (broadcasts : List BroadcastRec) (now : String) :
    HandlerResult :=
  if ¬ (ud.awaiting_broadcast.getD false) then
    ⟨ud, broadcasts, [], false, emptyLoop, ud.broadcast_cancelled.getD false⟩
  else if sender_id ∉ ADMIN_IDS then
    ⟨ud, broadcasts, [], false, emptyLoop, ud.broadcast_cancelled.getD false⟩
  else
    run_broadcast ud sender_id content users send extCancel broadcasts now

/-! ### The cancellation handlers -/

/-- `show_broadcast_stats` (lines 167-182): one reply, depending on whether
`broadcast_stats` is present. -/
def show_broadcast_stats (ud : UserData) : RunEvent :=
  match ud.broadcast_stats with
  | none => .replyText "No broadcast statistics available."
  | some s => .statsReply s

/-- `cancel_broadcast` (lines 156-165).  The handler receives the actor's
update (hence `sender_id`) but never consults it. -/
def cancel_broadcast (sender_id : Int) (ud : UserData) : UserData × List RunEvent :=
  if ud.broadcast_in_progress.isSome then
    let ud' := { ud with broadcast_cancelled := some true }
    (ud', [.replyText "Broadcast cancelled. Partial results:", show_broadcast_stats ud'])
  else if ud.awaiting_broadcast.isSome then
    ({ ud with awaiting_broadcast := none },
      [.replyText "Broadcast preparation cancelled."])
  else
    (ud, [.replyText "No broadcast to cancel."])

/-- `button_handler` (lines 337-346).  The actor's identity is available on
the callback query but never consulted. -/
def button_handler (sender_id : Int) (query_data : String) (ud : UserData) :
    UserData × List RunEvent :=
  if query_data == "cancel_broadcast" then
    ({ ud with broadcast_cancelled := some true },
      [.editedMessage "Broadcast cancelled by admin."])
  else (ud, [])

/-- The `broadcast` command (lines 136-154): allow-list gated. -/
def broadcast_command (sender_id : Int) (ud : UserData) : UserData × List RunEvent :=
  if sender_id ∉ ADMIN_IDS then
    (ud, [.replyText "You are not authorized to use this command."])
  else
    ({ ud with awaiting_broadcast := some true }, [.replyText "Please send the message you want to broadcast."])

/-! ### The approval path: `save_user` and `approve_user` -/

/-- The two persistent stores touched by the approval path. -/
structure Stores where
  users : List UserRec
  channels : List ChannelRec
deriving DecidableEq

/-- The `for user in users: if user['user_id'] == user_id: ...; break` loop
of `save_user` (lines 60-67): update the first matching record in place,
report whether a match was found. -/
def addChannelFirst (uid cid : Int) : List UserRec → List UserRec × Bool
  | [] => ([], false)
  | u :: rest =>
    if u.user_id == uid then
      ((if cid ∈ u.approved_channels then u
        else { u with approved_channels := u.approved_channels ++ [cid] }) :: rest, true)
    else
      let r := addChannelFirst uid cid rest
      (u :: r.1, r.2)

/-- Shallow embedding of `save_user` (lines 56-92).  Returns the updated
stores and whether `channels.json` was rewritten. -/
def save_user (uid : Int) (un fn ln : String) (cid : Int) (ctitle : String)
    (now : String) (st : Stores) : Stores × Bool :=
  let r := addChannelFirst uid cid st.users
  let users' :=
    if r.2 then r.1
    else r.1 ++ [⟨uid, un, fn, ln, now, [cid]⟩]
  let channel_exists := st.channels.any (fun c => c.channel_id == cid)
  if channel_exists then
    (⟨users', st.channels⟩, false)
  else
    (⟨users', st.channels ++ [⟨cid, ctitle, "channel_" ++ toString cid, now⟩]⟩, true)

/-- Observable steps of `approve_user`. -/
inductive ApEvent
  | approveCall
  | approveFailedLogged
  | persistUser
  | notifyAttempt (uid : Int)
  | notifyFailedLogged
deriving DecidableEq

/-- Shallow embedding of `approve_user` (lines 94-123).  `approveOk` is the
outcome of the platform's `approve()` call, `notifyOk` the outcome of the
best-effort notification. -/
def approve_user (approveOk notifyOk : Bool) (uid : Int) (un fn ln : String)
    (cid : Int) (ctitle : String) (now : String) (st : Stores) :
    Stores × List ApEvent :=
  if approveOk then
    let st' := (save_user uid un fn ln cid ctitle now st).1
    (st', [.approveCall, .persistUser, .notifyAttempt uid]
      ++ (if notifyOk then [] else [.notifyFailedLogged]))
  else
    (st, [.approveCall, .approveFailedLogged])

/-! ### Spec-side description of the progress-edit schedule -/

/-- Counters after the first `k` delivery outcomes of a run with snapshot
size `total`. -/
def countsUpTo (total : Nat) (outs : List SendResult) (k : Nat) : BStats :=
  (outs.take k).foldl bumpCounts ⟨total, 0, 0, 0, 0⟩

/-- The progress edit published right after processing recipient `i`. -/
def editPayload (total : Nat) (outs : List SendResult) (i : Nat) : RunEvent :=
  let c := countsUpTo total outs (i + 1)
  .progressEdit (i + 1) total (pyPercent (i + 1) total)
    c.successful (c.blocked + c.deleted + c.unsuccessful) true

/-- The spec's description of the republish schedule: one edit after each
processed zero-based index divisible by ten and after the final index. -/
def specEdits (total : Nat) (outs : List SendResult) (p : Nat) : List RunEvent :=
  ((List.range p).filter (fun i => i % 10 == 0 || i + 1 == total)).map
    (editPayload total outs)

/-- Relation between an input record and its updated version: every profile
field is unchanged and the approved set either stays or gains `cid`. -/
def preservesProfile (cid : Int) (u u2 : UserRec) : Prop :=
  u2.user_id = u.user_id ∧ u2.username = u.username ∧
  u2.first_name = u.first_name ∧ u2.last_name = u.last_name ∧
  u2.join_date = u.join_date ∧
  (u2.approved_channels = u.approved_channels ∨
    u2.approved_channels = u.approved_channels ++ [cid])


/-! ### Lemmas about the delivery loop -/

theorem bumpCounts_sum4 (c : BStats) (o : SendResult) :
    sum4 (bumpCounts c o) = sum4 c + 1 := by
  cases o with
  | ok => simp [bumpCounts, sum4]; omega
  | err e =>
    cases h : classify_error e <;> simp [bumpCounts, h, sum4] <;> omega

theorem bumpCounts_total (c : BStats) (o : SendResult) :
    (bumpCounts c o).total_users = c.total_users := by
  cases o with
  | ok => rfl
  | err e => cases h : classify_error e <;> simp [bumpCounts, h]

theorem broadcast_loop_processed_ge (cancel : Nat → Bool) (total : Nat)
    (outs : List SendResult) (i : Nat) (counts statsw : BStats) :
    i ≤ (broadcast_loop cancel total i outs counts statsw).processed := by
  induction outs generalizing i counts statsw with
  | nil => simp [broadcast_loop]
  | cons o rest ih =>
    by_cases hc : cancel i
    · simp [broadcast_loop, hc]
    · by_cases hb : (i % 10 == 0 || i + 1 == total)
      · simp only [broadcast_loop, hc, hb, Bool.false_eq_true, if_false, if_true]
        exact le_trans (Nat.le_succ i) (ih (i + 1) _ _)
      · simp only [broadcast_loop, hc, hb, Bool.false_eq_true, if_false]
        exact le_trans (Nat.le_succ i) (ih (i + 1) _ _)

theorem broadcast_loop_processed_le (cancel : Nat → Bool) (total : Nat)
    (outs : List SendResult) (i : Nat) (counts statsw : BStats) :
    (broadcast_loop cancel total i outs counts statsw).processed ≤ i + outs.length := by
  induction outs generalizing i counts statsw with
  | nil => simp [broadcast_loop]
  | cons o rest ih =>
    by_cases hc : cancel i
    · simp [broadcast_loop, hc]
    · by_cases hb : (i % 10 == 0 || i + 1 == total)
      · simp only [broadcast_loop, hc, hb, Bool.false_eq_true, if_false, if_true,
          List.length_cons]
        have := ih (i + 1) (bumpCounts counts o) (bumpCounts counts o)
        omega
      · simp only [broadcast_loop, hc, hb, Bool.false_eq_true, if_false,
          List.length_cons]
        have := ih (i + 1) (bumpCounts counts o) statsw
        omega

theorem broadcast_loop_sum4 (cancel : Nat → Bool) (total : Nat)
    (outs : List SendResult) (i : Nat) (counts statsw : BStats) :
    sum4 (broadcast_loop cancel total i outs counts statsw).counts + i =
      sum4 counts + (broadcast_loop cancel total i outs counts statsw).processed := by
  induction outs generalizing i counts statsw with
  | nil => simp [broadcast_loop]
  | cons o rest ih =>
    by_cases hc : cancel i
    · simp [broadcast_loop, hc]
    · by_cases hb : (i % 10 == 0 || i + 1 == total)
      · simp only [broadcast_loop, hc, hb, Bool.false_eq_true, if_false, if_true]
        have := ih (i + 1) (bumpCounts counts o) (bumpCounts counts o)
        have hs := bumpCounts_sum4 counts o
        omega
      · simp only [broadcast_loop, hc, hb, Bool.false_eq_true, if_false]
        have := ih (i + 1) (bumpCounts counts o) statsw
        have hs := bumpCounts_sum4 counts o
        omega

theorem broadcast_loop_not_broke (cancel : Nat → Bool) (total : Nat)
    (outs : List SendResult) (i : Nat) (counts statsw : BStats)
    (h : (broadcast_loop cancel total i outs counts statsw).broke = false) :
    (broadcast_loop cancel total i outs counts statsw).processed = i + outs.length := by
  induction outs generalizing i counts statsw with
  | nil => simp [broadcast_loop]
  | cons o rest ih =>
    by_cases hc : cancel i
    · simp [broadcast_loop, hc] at h
    · by_cases hb : (i % 10 == 0 || i + 1 == total)
      · simp only [broadcast_loop, hc, hb, Bool.false_eq_true, if_false, if_true,
          List.length_cons] at h ⊢
        have := ih (i + 1) (bumpCounts counts o) (bumpCounts counts o) h
        omega
      · simp only [broadcast_loop, hc, hb, Bool.false_eq_true, if_false,
          List.length_cons] at h ⊢
        have := ih (i + 1) (bumpCounts counts o) statsw h
        omega

theorem countsUpTo_succ (total : Nat) (outs : List SendResult) (i : Nat)
    (o : SendResult) (rest : List SendResult) (h : outs.drop i = o :: rest) :
    countsUpTo total outs (i + 1) = bumpCounts (countsUpTo total outs i) o := by
  have hget : outs[i]? = some o := by
    have := List.getElem?_drop outs i 0
    rw [h] at this
    simpa using this.symm
  unfold countsUpTo
  rw [List.take_succ, hget]
  simp [List.foldl_append]

theorem broadcast_loop_events (cancel : Nat → Bool) (total : Nat)
    (outs : List SendResult) :
    ∀ (rest : List SendResult) (i : Nat) (statsw : BStats),
      outs.drop i = rest →
      (broadcast_loop cancel total i rest (countsUpTo total outs i) statsw).events =
        ((List.range' i
            ((broadcast_loop cancel total i rest (countsUpTo total outs i) statsw).processed - i)).filter
          (fun j => j % 10 == 0 || j + 1 == total)).map (editPayload total outs) := by
  intro rest
  induction rest with
  | nil => intro i statsw _; simp [broadcast_loop]
  | cons o rest' ih =>
    intro i statsw h
    have hdrop : outs.drop (i + 1) = rest' := by
      have := congrArg List.tail h
      simpa [List.tail_drop] using this
    have hcnt := countsUpTo_succ total outs i o rest' h
    by_cases hc : cancel i
    · simp [broadcast_loop, hc]
    · by_cases hb : (i % 10 == 0 || i + 1 == total)
      · simp only [broadcast_loop, hc, hb, Bool.false_eq_true, if_false, if_true]
        rw [← hcnt]
        have ihs := ih (i + 1) (countsUpTo total outs (i + 1)) hdrop
        have hge := broadcast_loop_processed_ge cancel total rest' (i + 1)
          (countsUpTo total outs (i + 1)) (countsUpTo total outs (i + 1))
        set r := broadcast_loop cancel total (i + 1) rest'
          (countsUpTo total outs (i + 1)) (countsUpTo total outs (i + 1)) with hr
        have hsub : r.processed - i = (r.processed - (i + 1)) + 1 := by omega
        rw [hsub, List.range'_succ, List.filter_cons, if_pos hb]
        simp only [List.map_cons]
        congr 1
      · simp only [broadcast_loop, hc, hb, Bool.false_eq_true, if_false]
        rw [← hcnt]
        have ihs := ih (i + 1) statsw hdrop
        have hge := broadcast_loop_processed_ge cancel total rest' (i + 1)
          (countsUpTo total outs (i + 1)) statsw
        set r := broadcast_loop cancel total (i + 1) rest'
          (countsUpTo total outs (i + 1)) statsw with hr
        have hsub : r.processed - i = (r.processed - (i + 1)) + 1 := by omega
        rw [hsub, List.range'_succ, List.filter_cons, if_neg (by simpa using hb)]
        exact ihs


/-- At the start of the run (`i = 0`, zero counters) the loop's edit trace
is exactly the spec-side schedule over the processed prefix. -/
theorem broadcast_loop_events_zero (cancel : Nat → Bool) (total : Nat)
    (outs : List SendResult) (statsw : BStats) :
    (broadcast_loop cancel total 0 outs ⟨total, 0, 0, 0, 0⟩ statsw).events =
      specEdits total outs
        (broadcast_loop cancel total 0 outs ⟨total, 0, 0, 0, 0⟩ statsw).processed := by
  have h := broadcast_loop_events cancel total outs outs 0 statsw (by simp)
  have h0 : countsUpTo total outs 0 = ⟨total, 0, 0, 0, 0⟩ := rfl
  rw [h0] at h
  simpa [specEdits, List.range_eq_range'] using h

/-- Every event the loop emits is a progress edit. -/
theorem specEdits_no_finalEdit (total : Nat) (outs : List SendResult)
    (p a : Nat) (b : Bool) : RunEvent.finalEdit a b ∉ specEdits total outs p := by
  intro hmem
  rcases List.mem_map.mp hmem with ⟨i, _, hEq⟩
  simp [editPayload] at hEq

/-! ### Lemmas about `save_user` -/

/-- The `break`-style search of `save_user` finds a record exactly when one
with the requested id is present. -/
theorem addChannelFirst_found (uid cid : Int) (us : List UserRec) :
    (addChannelFirst uid cid us).2 = us.any (fun u => u.user_id == uid) := by
  induction us with
  | nil => rfl
  | cons u rest ih =>
    by_cases h : u.user_id == uid
    · simp [addChannelFirst, h]
    · simp only [addChannelFirst, h, Bool.false_eq_true, if_false, List.any_cons,
        Bool.false_or]
      exact ih

/-- The search loop does not change how many records carry the id. -/
theorem addChannelFirst_countP (uid cid : Int) (us : List UserRec) :
    ((addChannelFirst uid cid us).1.countP (fun u => u.user_id == uid)) =
      us.countP (fun u => u.user_id == uid) := by
  induction us with
  | nil => rfl
  | cons u rest ih =>
    by_cases h : u.user_id == uid
    · by_cases hm : cid ∈ u.approved_channels
      · simp [addChannelFirst, h, hm, List.countP_cons]
      · simp [addChannelFirst, h, hm, List.countP_cons]
    · simp [addChannelFirst, h, List.countP_cons, ih]

theorem preservesProfile_refl (cid : Int) (u : UserRec) : preservesProfile cid u u :=
  ⟨rfl, rfl, rfl, rfl, rfl, Or.inl rfl⟩

/-- The search loop preserves every record's profile fields. -/
theorem addChannelFirst_preserves (uid cid : Int) (us : List UserRec) :
    List.Forall₂ (preservesProfile cid) us (addChannelFirst uid cid us).1 := by
  induction us with
  | nil => exact List.Forall₂.nil
  | cons u rest ih =>
    by_cases h : u.user_id == uid
    · by_cases hm : cid ∈ u.approved_channels
      · simp only [addChannelFirst, h, hm, if_true]
        exact List.Forall₂.cons (preservesProfile_refl cid u)
          (List.forall₂_same.mpr (fun x _ => preservesProfile_refl cid x))
      · simp only [addChannelFirst, h, hm, if_true, if_false]
        exact List.Forall₂.cons ⟨rfl, rfl, rfl, rfl, rfl, Or.inr rfl⟩
          (List.forall₂_same.mpr (fun x _ => preservesProfile_refl cid x))
    · simp only [addChannelFirst, h, Bool.false_eq_true, if_false]
      exact List.Forall₂.cons (preservesProfile_refl cid u) ih

/-- After the search loop, in a store that held at most one record for the
id and at most one copy of the channel inside it, every record with the id
counts the channel exactly once. -/
theorem addChannelFirst_channel_count (uid cid : Int) (us : List UserRec)
    (hcount : us.countP (fun u => u.user_id == uid) ≤ 1)
    (hchan : ∀ u ∈ us, u.user_id = uid → u.approved_channels.count cid ≤ 1) :
    ∀ u2 ∈ (addChannelFirst uid cid us).1, u2.user_id = uid →
      u2.approved_channels.count cid = 1 := by
  induction us with
  | nil => intro u2 h; simp [addChannelFirst] at h
  | cons u rest ih =>
    by_cases h : u.user_id == uid
    · intro u2 hmem hid
      have hrest0 : rest.countP (fun u => u.user_id == uid) = 0 := by
        rw [List.countP_cons_of_pos _ _ (by simpa using h)] at hcount
        omega
      simp only [addChannelFirst, h, if_true, List.mem_cons] at hmem
      rcases hmem with hhead | htail
      · subst hhead
        by_cases hm : cid ∈ u.approved_channels
        · simp only [hm, if_true]
          have h1 : 1 ≤ u.approved_channels.count cid := List.one_le_count_iff.mpr hm
          have h2 : u.approved_channels.count cid ≤ 1 :=
            hchan u (List.mem_cons_self u rest) (by simpa using h)
          omega
        · simp only [hm, if_false]
          have h0 : u.approved_channels.count cid = 0 := List.count_eq_zero.mpr hm
          simp [List.count_append, h0]
      · exfalso
        have hpos : 0 < rest.countP (fun u => u.user_id == uid) :=
          List.countP_pos_iff.mpr ⟨u2, htail, by simpa using hid⟩
        omega
    · intro u2 hmem hid
      simp only [addChannelFirst, h, Bool.false_eq_true, if_false, List.mem_cons] at hmem
      rcases hmem with hhead | htail
      · subst hhead
        exact absurd (by simpa using hid) (by simpa using h)
      · have hcount2 : rest.countP (fun u => u.user_id == uid) ≤ 1 := by
          have := List.countP_cons (fun u => u.user_id == uid) u rest
          rw [this] at hcount
          omega
        exact ih hcount2 (fun v hv hvid => hchan v (List.mem_cons_of_mem u hv) hvid)
          u2 htail hid

/-- The users component of the store after `save_user`. -/
theorem save_user_users_eq (uid : Int) (un fn ln : String) (cid : Int)
    (ct now : String) (st : Stores) :
    (save_user uid un fn ln cid ct now st).1.users =
      (if (addChannelFirst uid cid st.users).2 then (addChannelFirst uid cid st.users).1
       else (addChannelFirst uid cid st.users).1 ++ [⟨uid, un, fn, ln, now, [cid]⟩]) := by
  unfold save_user
  by_cases hch : st.channels.any (fun c => c.channel_id == cid) <;> simp [hch]

/-- The channels component and write flag after `save_user`: rewritten only
when the channel id was absent. -/
theorem save_user_channels_eq (uid : Int) (un fn ln : String) (cid : Int)
    (ct now : String) (st : Stores) :
    (save_user uid un fn ln cid ct now st).1.channels =
      (if st.channels.any (fun c => c.channel_id == cid) then st.channels
       else st.channels ++ [⟨cid, ct, "channel_" ++ toString cid, now⟩]) ∧
    (save_user uid un fn ln cid ct now st).2 =
      !(st.channels.any (fun c => c.channel_id == cid)) := by
  unfold save_user
  by_cases hch : st.channels.any (fun c => c.channel_id == cid) <;> simp [hch]

/-- After one `save_user`, a store that held at most one record for the id
holds exactly one. -/
theorem save_user_users_countP (uid : Int) (un fn ln : String) (cid : Int)
    (ct now : String) (st : Stores)
    (hcount : st.users.countP (fun u => u.user_id == uid) ≤ 1) :
    (save_user uid un fn ln cid ct now st).1.users.countP
      (fun u => u.user_id == uid) = 1 := by
  rw [save_user_users_eq]
  by_cases hf : (addChannelFirst uid cid st.users).2
  · rw [if_pos hf, addChannelFirst_countP]
    have hany : st.users.any (fun u => u.user_id == uid) = true := by
      rw [← addChannelFirst_found uid cid]; exact hf
    rcases List.any_eq_true.mp hany with ⟨u, hu, hpu⟩
    have hpos : 0 < st.users.countP (fun u => u.user_id == uid) :=
      List.countP_pos_iff.mpr ⟨u, hu, hpu⟩
    omega
  · rw [if_neg hf, List.countP_append, addChannelFirst_countP]
    have hany : st.users.any (fun u => u.user_id == uid) = false := by
      rw [← addChannelFirst_found uid cid]; simpa using hf
    have h0 : st.users.countP (fun u => u.user_id == uid) = 0 := by
      rw [List.countP_eq_zero]
      intro u hu
      exact List.any_eq_false.mp hany u hu
    simp [h0, List.countP_cons]

/-- After one `save_user`, every record carrying the id lists the channel
exactly once (given the store was not already malformed). -/
theorem save_user_channel_count (uid : Int) (un fn ln : String) (cid : Int)
    (ct now : String) (st : Stores)
    (hcount : st.users.countP (fun u => u.user_id == uid) ≤ 1)
    (hchan : ∀ u ∈ st.users, u.user_id = uid → u.approved_channels.count cid ≤ 1) :
    ∀ u2 ∈ (save_user uid un fn ln cid ct now st).1.users, u2.user_id = uid →
      u2.approved_channels.count cid = 1 := by
  rw [save_user_users_eq]
  by_cases hf : (addChannelFirst uid cid st.users).2
  · rw [if_pos hf]
    exact addChannelFirst_channel_count uid cid st.users hcount hchan
  · rw [if_neg hf]
    intro u2 hmem hid
    rcases List.mem_append.mp hmem with hin | hnew
    · exact addChannelFirst_channel_count uid cid st.users hcount hchan u2 hin hid
    · have : u2 = ⟨uid, un, fn, ln, now, [cid]⟩ := by simpa using hnew
      subst this
      simp

/-- After one `save_user`, exactly one channel record carries the id. -/
theorem save_user_channels_countP (uid : Int) (un fn ln : String) (cid : Int)
    (ct now : String) (st : Stores)
    (hcount : st.channels.countP (fun c => c.channel_id == cid) ≤ 1) :
    (save_user uid un fn ln cid ct now st).1.channels.countP
      (fun c => c.channel_id == cid) = 1 := by
  rw [(save_user_channels_eq uid un fn ln cid ct now st).1]
  by_cases hch : st.channels.any (fun c => c.channel_id == cid)
  · rw [if_pos hch]
    rcases List.any_eq_true.mp hch with ⟨c, hc, hpc⟩
    have hpos : 0 < st.channels.countP (fun c => c.channel_id == cid) :=
      List.countP_pos_iff.mpr ⟨c, hc, hpc⟩
    omega
  · rw [if_neg hch, List.countP_append]
    have hanyc : st.channels.any (fun c => c.channel_id == cid) = false := by
      simpa using hch
    have h0 : st.channels.countP (fun c => c.channel_id == cid) = 0 := by
      rw [List.countP_eq_zero]
      intro c hc
      exact List.any_eq_false.mp hanyc c hc
    simp [h0, List.countP_cons]

/-! ### Unfolding the handler on its main branch -/

theorem handle_eq_run (ud : UserData) (sender_id : Int) (content : MsgContent)
    (users : List UserRec) (send : Nat → SendResult) (extCancel : Nat → Bool)
    (broadcasts : List BroadcastRec) (now : String)
    (hA : ud.awaiting_broadcast.getD false = true) (hS : sender_id ∈ ADMIN_IDS) :
    handle_broadcast_message ud sender_id content users send extCancel broadcasts now =
      run_broadcast ud sender_id content users send extCancel broadcasts now := by
  simp [handle_broadcast_message, hA, hS]

theorem run_broadcast_eq (ud : UserData) (sender_id : Int) (content : MsgContent)
    (users : List UserRec) (send : Nat → SendResult) (extCancel : Nat → Bool)
    (broadcasts : List BroadcastRec) (now : String) (hne : users ≠ []) :
    run_broadcast ud sender_id content users send extCancel broadcasts now =
      (let total := users.length
      let r := broadcast_loop extCancel total 0 ((List.range total).map send)
        ⟨total, 0, 0, 0, 0⟩ ⟨total, 0, 0, 0, 0⟩
      let cancelled := r.broke || extCancel r.processed
      ⟨⟨none, none, some cancelled, some r.stats_written⟩,
        (if cancelled then broadcasts
         else broadcasts ++ [⟨sender_id, message_type content, now, total,
           r.counts.successful, r.counts.blocked, r.counts.deleted,
           r.counts.unsuccessful⟩]),
        RunEvent.progressInit total true :: r.events
          ++ [RunEvent.finalEdit total false, RunEvent.statsReply r.stats_written],
        true, r, cancelled⟩) := by
  simp only [run_broadcast]
  rw [if_neg (by simpa [List.isEmpty_iff] using hne)]

/-! ### Claim theorems -/

/-- C2: the delivery-failure classifier, applied to the lower-cased
description, returns Blocked when the description contains "blocked"
(whatever the letter case, and even when "deleted" or "not found" also
occur); otherwise DeletedAccount when it contains "deleted" or
"not found"; otherwise Unsuccessful — first match wins. -/
theorem classifier_precedence (s : String) :
    (containsSub (lowerStr s) "blocked" = true → classify_error s = .blockedAcc) ∧
    (containsSub (lowerStr s) "blocked" = false →
      (containsSub (lowerStr s) "deleted" || containsSub (lowerStr s) "not found") = true →
      classify_error s = .deletedAcc) ∧
    (containsSub (lowerStr s) "blocked" = false →
      (containsSub (lowerStr s) "deleted" || containsSub (lowerStr s) "not found") = false →
      classify_error s = .otherFail) := by
  unfold classify_error
  exact ⟨fun h => by simp [h], fun h1 h2 => by simp [h1, h2],
    fun h1 h2 => by simp [h1, h2]⟩

/-- Witness for C2: a description containing "BLOCKED" as well as both
DeletedAccount keywords is classified Blocked; the later categories fire
only in the absence of the earlier ones. -/
theorem classifier_precedence_witness :
    classify_error "Forbidden: bot was BLOCKED; user deleted; chat not found" =
      .blockedAcc ∧
    classify_error "PEER_ID_INVALID: user account DELETED" = .deletedAcc ∧
    classify_error "Timed out" = .otherFail :=
  ⟨(classifier_precedence "Forbidden: bot was BLOCKED; user deleted; chat not found").1
      (by decide),
   (classifier_precedence "PEER_ID_INVALID: user account DELETED").2.1
      (by decide) (by decide),
   (classifier_precedence "Timed out").2.2 (by decide) (by decide)⟩

/-- C6: when the platform approve call fails, `approve_user` writes nothing
to the stores and attempts no notification; when it succeeds, the stores
are updated by `save_user` before the notification attempt, and a failing
notification leaves the persisted state untouched. -/
theorem approve_user_error_handling (notifyOk : Bool) (uid : Int)
    (un fn ln : String) (cid : Int) (ct now : String) (st : Stores) :
    ((approve_user false notifyOk uid un fn ln cid ct now st).1 = st ∧
      (approve_user false notifyOk uid un fn ln cid ct now st).2 =
        [.approveCall, .approveFailedLogged]) ∧
    ((approve_user true notifyOk uid un fn ln cid ct now st).1 =
        (save_user uid un fn ln cid ct now st).1 ∧
      (approve_user true notifyOk uid un fn ln cid ct now st).2 =
        [.approveCall, .persistUser, .notifyAttempt uid]
          ++ (if notifyOk then [] else [.notifyFailedLogged])) ∧
    (approve_user true true uid un fn ln cid ct now st).1 =
      (approve_user true false uid un fn ln cid ct now st).1 :=
  ⟨⟨rfl, rfl⟩, ⟨rfl, rfl⟩, rfl⟩

/-- C4 counterexample: the actor 999 is not on the allow-list, yet pressing
the "Cancel Broadcast" button runs to completion for it: the session's
cancelled flag is set (state does change) and the reply is the
"cancelled by admin" edit, not a rejection. -/
theorem cancellation_gating_counterexample :
    ((999 : Int) ∈ ADMIN_IDS → False) ∧
    (button_handler 999 "cancel_broadcast"
        ⟨none, some true, some false, some ⟨5, 1, 0, 0, 0⟩⟩).1.broadcast_cancelled =
      some true ∧
    (button_handler 999 "cancel_broadcast"
        ⟨none, some true, some false, some ⟨5, 1, 0, 0, 0⟩⟩).1 ≠
      ⟨none, some true, some false, some ⟨5, 1, 0, 0, 0⟩⟩ ∧
    (button_handler 999 "cancel_broadcast"
        ⟨none, some true, some false, some ⟨5, 1, 0, 0, 0⟩⟩).2 =
      [.editedMessage "Broadcast cancelled by admin."] := by
  decide

/-- C4 (amended): cancellation actions are not gated by the allow-list:
`cancel_broadcast` and `button_handler` behave identically for every actor
identity, and a "Cancel Broadcast" button press sets the pressing actor's
cancelled flag unconditionally.  (Only `broadcast` and `stats` consult
`ADMIN_IDS`.) -/
theorem cancellation_not_gated (a b : Int) (d : String) (ud : UserData) :
    button_handler a d ud = button_handler b d ud ∧
    cancel_broadcast a ud = cancel_broadcast b ud ∧
    (button_handler a "cancel_broadcast" ud).1.broadcast_cancelled = some true := by
  refine ⟨rfl, rfl, ?_⟩
  simp [button_handler]

/-- C7: recording an approval is idempotent per (user, channel) pair:
after two `save_user` calls with the same user id and channel id (profile
strings may differ), a well-formed store holds exactly one record for the
user, that record lists the channel exactly once, and exactly one channel
record carries the channel id. -/
theorem save_user_idempotent (uid : Int) (un1 fn1 ln1 : String) (cid : Int)
    (ct1 t1 : String) (un2 fn2 ln2 ct2 t2 : String) (st : Stores)
    (h1 : st.users.countP (fun u => u.user_id == uid) ≤ 1)
    (h2 : ∀ u ∈ st.users, u.user_id = uid → u.approved_channels.count cid ≤ 1)
    (h3 : st.channels.countP (fun c => c.channel_id == cid) ≤ 1) :
    ((save_user uid un2 fn2 ln2 cid ct2 t2
        (save_user uid un1 fn1 ln1 cid ct1 t1 st).1).1.users.countP
      (fun u => u.user_id == uid) = 1) ∧
    (∀ u ∈ (save_user uid un2 fn2 ln2 cid ct2 t2
        (save_user uid un1 fn1 ln1 cid ct1 t1 st).1).1.users,
      u.user_id = uid → u.approved_channels.count cid = 1) ∧
    ((save_user uid un2 fn2 ln2 cid ct2 t2
        (save_user uid un1 fn1 ln1 cid ct1 t1 st).1).1.channels.countP
      (fun c => c.channel_id == cid) = 1) := by
  have k1 := save_user_users_countP uid un1 fn1 ln1 cid ct1 t1 st h1
  have k2 := save_user_channel_count uid un1 fn1 ln1 cid ct1 t1 st h1 h2
  have k3 := save_user_channels_countP uid un1 fn1 ln1 cid ct1 t1 st h3
  exact ⟨save_user_users_countP uid un2 fn2 ln2 cid ct2 t2 _ (le_of_eq k1),
    save_user_channel_count uid un2 fn2 ln2 cid ct2 t2 _ (le_of_eq k1)
      (fun u hu hid => le_of_eq (k2 u hu hid)),
    save_user_channels_countP uid un2 fn2 ln2 cid ct2 t2 _ (le_of_eq k3)⟩

/-- Witness for C7: two approvals of user 7 into channel 5 starting from
empty stores leave one user record, one listing of channel 5, and one
channel record. -/
theorem save_user_idempotent_witness :
    ((save_user 7 "u2" "f2" "l2" 5 "T2" "d2"
        (save_user 7 "u1" "f1" "l1" 5 "T1" "d1" ⟨[], []⟩).1).1.users.countP
      (fun u => u.user_id == 7) = 1) ∧
    (∀ u ∈ (save_user 7 "u2" "f2" "l2" 5 "T2" "d2"
        (save_user 7 "u1" "f1" "l1" 5 "T1" "d1" ⟨[], []⟩).1).1.users,
      u.user_id = 7 → u.approved_channels.count 5 = 1) ∧
    ((save_user 7 "u2" "f2" "l2" 5 "T2" "d2"
        (save_user 7 "u1" "f1" "l1" 5 "T1" "d1" ⟨[], []⟩).1).1.channels.countP
      (fun c => c.channel_id == 5) = 1) :=
  save_user_idempotent 7 "u1" "f1" "l1" 5 "T1" "d1" "u2" "f2" "l2" "T2" "d2"
    ⟨[], []⟩ (by decide) (by decide) (by decide)

/-- C10: for a user already present, `save_user` keeps every record's
username, first name, last name and first-seen date unchanged (only the
approved-channel set may gain the new channel), and for a channel already
present the channel store is not rewritten at all. -/
theorem save_user_frame (uid : Int) (un fn ln : String) (cid : Int)
    (ct now : String) (st : Stores) :
    (st.users.any (fun u => u.user_id == uid) = true →
      List.Forall₂ (preservesProfile cid) st.users
        (save_user uid un fn ln cid ct now st).1.users) ∧
    (st.channels.any (fun c => c.channel_id == cid) = true →
      (save_user uid un fn ln cid ct now st).1.channels = st.channels ∧
      (save_user uid un fn ln cid ct now st).2 = false) := by
  constructor
  · intro hu
    rw [save_user_users_eq]
    have hf : (addChannelFirst uid cid st.users).2 = true := by
      rw [addChannelFirst_found]; exact hu
    rw [if_pos hf]
    exact addChannelFirst_preserves uid cid st.users
  · intro hc
    have h := save_user_channels_eq uid un fn ln cid ct now st
    exact ⟨by rw [h.1, if_pos hc], by rw [h.2, hc]; rfl⟩

/-- Witness for C10: re-approving user 7 (already recorded with channels
[5]) into the already-known channel 9 preserves the profile and does not
rewrite the channel store. -/
theorem save_user_frame_witness :
    List.Forall₂ (preservesProfile 9)
      [⟨7, "u", "f", "l", "d", [5]⟩]
      ((save_user 7 "u" "f" "l" 9 "T" "d2"
        ⟨[⟨7, "u", "f", "l", "d", [5]⟩], [⟨9, "T", "channel_9", "d"⟩]⟩).1.users) ∧
    ((save_user 7 "u" "f" "l" 9 "T" "d2"
        ⟨[⟨7, "u", "f", "l", "d", [5]⟩], [⟨9, "T", "channel_9", "d"⟩]⟩).1.channels =
      [⟨9, "T", "channel_9", "d"⟩] ∧
     (save_user 7 "u" "f" "l" 9 "T" "d2"
        ⟨[⟨7, "u", "f", "l", "d", [5]⟩], [⟨9, "T", "channel_9", "d"⟩]⟩).2 = false) :=
  ⟨(save_user_frame 7 "u" "f" "l" 9 "T" "d2"
      ⟨[⟨7, "u", "f", "l", "d", [5]⟩], [⟨9, "T", "channel_9", "d"⟩]⟩).1 (by decide),
   (save_user_frame 7 "u" "f" "l" 9 "T" "d2"
      ⟨[⟨7, "u", "f", "l", "d", [5]⟩], [⟨9, "T", "channel_9", "d"⟩]⟩).2 (by decide)⟩

/-- C1 (amended): at loop exit the counters sum to the number of processed
recipients, which is at most the snapshot total, and which equals the total
whenever the final cancellation-flag read is false.  (The converse fails:
a cancellation arriving after the last recipient leaves processed = total
with the flag set, see the counterexample.) -/
theorem broadcast_counts_invariant (ud : UserData) (sender_id : Int)
    (content : MsgContent) (users : List UserRec) (send : Nat → SendResult)
    (extCancel : Nat → Bool) (broadcasts : List BroadcastRec) (now : String)
    (hA : ud.awaiting_broadcast.getD false = true) (hS : sender_id ∈ ADMIN_IDS)
    (hne : users ≠ []) :
    sum4 (handle_broadcast_message ud sender_id content users send extCancel
        broadcasts now).loop.counts =
      (handle_broadcast_message ud sender_id content users send extCancel
        broadcasts now).loop.processed ∧
    (handle_broadcast_message ud sender_id content users send extCancel
        broadcasts now).loop.processed ≤ users.length ∧
    ((handle_broadcast_message ud sender_id content users send extCancel
        broadcasts now).cancelledAtEnd = false →
      (handle_broadcast_message ud sender_id content users send extCancel
        broadcasts now).loop.processed = users.length) := by
  rw [handle_eq_run ud sender_id content users send extCancel broadcasts now hA hS,
    run_broadcast_eq ud sender_id content users send extCancel broadcasts now hne]
  simp only []
  have h1 := broadcast_loop_sum4 extCancel users.length
    ((List.range users.length).map send) 0 ⟨users.length, 0, 0, 0, 0⟩
    ⟨users.length, 0, 0, 0, 0⟩
  have h2 := broadcast_loop_processed_le extCancel users.length
    ((List.range users.length).map send) 0 ⟨users.length, 0, 0, 0, 0⟩
    ⟨users.length, 0, 0, 0, 0⟩
  have hlen : ((List.range users.length).map send).length = users.length := by simp
  have hz : sum4 ⟨users.length, 0, 0, 0, 0⟩ = 0 := rfl
  refine ⟨by omega, by omega, ?_⟩
  intro hc
  have hbroke : (broadcast_loop extCancel users.length 0
      ((List.range users.length).map send) ⟨users.length, 0, 0, 0, 0⟩
      ⟨users.length, 0, 0, 0, 0⟩).broke = false := by
    rcases Bool.or_eq_false_iff.mp hc with ⟨hb, _⟩
    exact hb
  have h3 := broadcast_loop_not_broke extCancel users.length
    ((List.range users.length).map send) 0 ⟨users.length, 0, 0, 0, 0⟩
    ⟨users.length, 0, 0, 0, 0⟩ hbroke
  omega

/-- Witness for C1: the spec's own scenario — recipients [A, B, C],
delivery failing for B with a "blocked" description, no cancellation. -/
theorem broadcast_counts_invariant_witness :
    (⟨some true, none, none, none⟩ : UserData).awaiting_broadcast.getD false = true ∧
    (1524473035 : Int) ∈ ADMIN_IDS ∧
    ([⟨1, "a", "", "", "d", [1]⟩, ⟨2, "b", "", "", "d", [1]⟩,
      ⟨3, "c", "", "", "d", [1]⟩] : List UserRec) ≠ [] ∧
    sum4 (handle_broadcast_message ⟨some true, none, none, none⟩ 1524473035 .text
        [⟨1, "a", "", "", "d", [1]⟩, ⟨2, "b", "", "", "d", [1]⟩, ⟨3, "c", "", "", "d", [1]⟩]
        (fun i => if i == 1 then .err "bot was blocked by the user" else .ok)
        (fun _ => false) [] "t").loop.counts =
      (handle_broadcast_message ⟨some true, none, none, none⟩ 1524473035 .text
        [⟨1, "a", "", "", "d", [1]⟩, ⟨2, "b", "", "", "d", [1]⟩, ⟨3, "c", "", "", "d", [1]⟩]
        (fun i => if i == 1 then .err "bot was blocked by the user" else .ok)
        (fun _ => false) [] "t").loop.processed :=
  ⟨by decide, by decide, by decide,
    (broadcast_counts_invariant ⟨some true, none, none, none⟩ 1524473035 .text
      [⟨1, "a", "", "", "d", [1]⟩, ⟨2, "b", "", "", "d", [1]⟩, ⟨3, "c", "", "", "d", [1]⟩]
      (fun i => if i == 1 then .err "bot was blocked by the user" else .ok)
      (fun _ => false) [] "t" (by decide) (by decide) (by decide)).1⟩

/-- C1 counterexample: with one recipient and a cancellation signal that
becomes (and stays) true right after that recipient is processed, the run
processes the full snapshot yet ends with the cancellation flag set, so
"processed = total exactly when not cancelled" fails in the
only-if direction. -/
theorem broadcast_counts_iff_counterexample :
    (handle_broadcast_message ⟨some true, none, none, none⟩ 1524473035 .text
        [⟨7, "u", "f", "l", "d", [1]⟩] (fun _ => .ok) (fun k => decide (1 ≤ k))
        [] "t").loop.processed =
      ([⟨7, "u", "f", "l", "d", [1]⟩] : List UserRec).length ∧
    (handle_broadcast_message ⟨some true, none, none, none⟩ 1524473035 .text
        [⟨7, "u", "f", "l", "d", [1]⟩] (fun _ => .ok) (fun k => decide (1 ≤ k))
        [] "t").cancelledAtEnd = true ∧
    ¬((handle_broadcast_message ⟨some true, none, none, none⟩ 1524473035 .text
        [⟨7, "u", "f", "l", "d", [1]⟩] (fun _ => .ok) (fun k => decide (1 ≤ k))
        [] "t").loop.processed =
        ([⟨7, "u", "f", "l", "d", [1]⟩] : List UserRec).length ↔
      (handle_broadcast_message ⟨some true, none, none, none⟩ 1524473035 .text
        [⟨7, "u", "f", "l", "d", [1]⟩] (fun _ => .ok) (fun k => decide (1 ≤ k))
        [] "t").cancelledAtEnd = false) := by
  decide

/-- C3: when the final cancellation-flag read is false, exactly the one
record carrying the operator id, content kind, timestamp and final counts
is appended to the report store; when it is true, the store is left
unchanged. -/
theorem broadcast_report_persistence (ud : UserData) (sender_id : Int)
    (content : MsgContent) (users : List UserRec) (send : Nat → SendResult)
    (extCancel : Nat → Bool) (broadcasts : List BroadcastRec) (now : String)
    (hA : ud.awaiting_broadcast.getD false = true) (hS : sender_id ∈ ADMIN_IDS)
    (hne : users ≠ []) :
    ((handle_broadcast_message ud sender_id content users send extCancel
        broadcasts now).cancelledAtEnd = false →
      (handle_broadcast_message ud sender_id content users send extCancel
        broadcasts now).broadcasts =
        broadcasts ++ [⟨sender_id, message_type content, now, users.length,
          (handle_broadcast_message ud sender_id content users send extCancel
            broadcasts now).loop.counts.successful,
          (handle_broadcast_message ud sender_id content users send extCancel
            broadcasts now).loop.counts.blocked,
          (handle_broadcast_message ud sender_id content users send extCancel
            broadcasts now).loop.counts.deleted,
          (handle_broadcast_message ud sender_id content users send extCancel
            broadcasts now).loop.counts.unsuccessful⟩]) ∧
    ((handle_broadcast_message ud sender_id content users send extCancel
        broadcasts now).cancelledAtEnd = true →
      (handle_broadcast_message ud sender_id content users send extCancel
        broadcasts now).broadcasts = broadcasts) := by
  rw [handle_eq_run ud sender_id content users send extCancel broadcasts now hA hS,
    run_broadcast_eq ud sender_id content users send extCancel broadcasts now hne]
  simp only []
  constructor
  · intro hc
    rw [hc]
    simp
  · intro hc
    rw [hc]
    simp

/-- Witness for C3: an uncancelled 1-recipient run appends exactly one
record with the final counts; a run cancelled before its first recipient
leaves the report store untouched. -/
theorem broadcast_report_persistence_witness :
    (handle_broadcast_message ⟨some true, none, none, none⟩ 1524473035 .text
        [⟨7, "u", "f", "l", "d", [1]⟩] (fun _ => .ok) (fun _ => false)
        [] "t").cancelledAtEnd = false ∧
    (handle_broadcast_message ⟨some true, none, none, none⟩ 1524473035 .text
        [⟨7, "u", "f", "l", "d", [1]⟩] (fun _ => .ok) (fun _ => false)
        [] "t").broadcasts =
      [] ++ [⟨1524473035, message_type .text, "t", 1,
        (handle_broadcast_message ⟨some true, none, none, none⟩ 1524473035 .text
          [⟨7, "u", "f", "l", "d", [1]⟩] (fun _ => .ok) (fun _ => false)
          [] "t").loop.counts.successful,
        (handle_broadcast_message ⟨some true, none, none, none⟩ 1524473035 .text
          [⟨7, "u", "f", "l", "d", [1]⟩] (fun _ => .ok) (fun _ => false)
          [] "t").loop.counts.blocked,
        (handle_broadcast_message ⟨some true, none, none, none⟩ 1524473035 .text
          [⟨7, "u", "f", "l", "d", [1]⟩] (fun _ => .ok) (fun _ => false)
          [] "t").loop.counts.deleted,
        (handle_broadcast_message ⟨some true, none, none, none⟩ 1524473035 .text
          [⟨7, "u", "f", "l", "d", [1]⟩] (fun _ => .ok) (fun _ => false)
          [] "t").loop.counts.unsuccessful⟩] ∧
    (handle_broadcast_message ⟨some true, none, none, none⟩ 1524473035 .text
        [⟨7, "u", "f", "l", "d", [1]⟩] (fun _ => .ok) (fun _ => true)
        [] "t").cancelledAtEnd = true ∧
    (handle_broadcast_message ⟨some true, none, none, none⟩ 1524473035 .text
        [⟨7, "u", "f", "l", "d", [1]⟩] (fun _ => .ok) (fun _ => true)
        [] "t").broadcasts = [] :=
  ⟨by decide,
   (broadcast_report_persistence ⟨some true, none, none, none⟩ 1524473035 .text
      [⟨7, "u", "f", "l", "d", [1]⟩] (fun _ => .ok) (fun _ => false) [] "t"
      (by decide) (by decide) (by decide)).1 (by decide),
   by decide,
   (broadcast_report_persistence ⟨some true, none, none, none⟩ 1524473035 .text
      [⟨7, "u", "f", "l", "d", [1]⟩] (fun _ => .ok) (fun _ => true) [] "t"
      (by decide) (by decide) (by decide)).2 (by decide)⟩

/-- C5 counterexample: a 2-recipient run cancelled after its first
recipient still gets the terminal "completed" edit, and the N that edit
reports is the snapshot total 2, not the processed count 1. -/
theorem terminal_edit_counterexample :
    (handle_broadcast_message ⟨some true, none, none, none⟩ 1524473035 .text
        [⟨7, "u", "f", "l", "d", [1]⟩, ⟨8, "v", "f", "l", "d", [1]⟩]
        (fun _ => .ok) (fun k => decide (1 ≤ k)) [] "t").cancelledAtEnd = true ∧
    (handle_broadcast_message ⟨some true, none, none, none⟩ 1524473035 .text
        [⟨7, "u", "f", "l", "d", [1]⟩, ⟨8, "v", "f", "l", "d", [1]⟩]
        (fun _ => .ok) (fun k => decide (1 ≤ k)) [] "t").loop.processed = 1 ∧
    RunEvent.finalEdit 2 false ∈
      (handle_broadcast_message ⟨some true, none, none, none⟩ 1524473035 .text
        [⟨7, "u", "f", "l", "d", [1]⟩, ⟨8, "v", "f", "l", "d", [1]⟩]
        (fun _ => .ok) (fun k => decide (1 ≤ k)) [] "t").events ∧
    (2 : Nat) ≠ 1 := by
  decide

/-- C5 (amended): the progress indicator is replaced by the terminal
"Broadcast completed! N users processed" edit (cancel affordance removed)
exactly once on every loop exit, cancelled or not; the N it reports is the
snapshot total, which equals the processed count whenever the run was not
cancelled. -/
theorem terminal_edit_unconditional (ud : UserData) (sender_id : Int)
    (content : MsgContent) (users : List UserRec) (send : Nat → SendResult)
    (extCancel : Nat → Bool) (broadcasts : List BroadcastRec) (now : String)
    (hA : ud.awaiting_broadcast.getD false = true) (hS : sender_id ∈ ADMIN_IDS)
    (hne : users ≠ []) :
    ((handle_broadcast_message ud sender_id content users send extCancel
        broadcasts now).events.count (RunEvent.finalEdit users.length false) = 1) ∧
    ((handle_broadcast_message ud sender_id content users send extCancel
        broadcasts now).cancelledAtEnd = false →
      (handle_broadcast_message ud sender_id content users send extCancel
        broadcasts now).loop.processed = users.length) := by
  rw [handle_eq_run ud sender_id content users send extCancel broadcasts now hA hS,
    run_broadcast_eq ud sender_id content users send extCancel broadcasts now hne]
  simp only []
  constructor
  · have hz : (broadcast_loop extCancel users.length 0
        ((List.range users.length).map send) ⟨users.length, 0, 0, 0, 0⟩
        ⟨users.length, 0, 0, 0, 0⟩).events.count
          (RunEvent.finalEdit users.length false) = 0 := by
      rw [broadcast_loop_events_zero]
      exact List.count_eq_zero.mpr
        (specEdits_no_finalEdit users.length ((List.range users.length).map send)
          _ users.length false)
    simp [List.count_cons, List.count_append, hz]
  · intro hc
    have hbroke : (broadcast_loop extCancel users.length 0
        ((List.range users.length).map send) ⟨users.length, 0, 0, 0, 0⟩
        ⟨users.length, 0, 0, 0, 0⟩).broke = false :=
      (Bool.or_eq_false_iff.mp hc).1
    have h3 := broadcast_loop_not_broke extCancel users.length
      ((List.range users.length).map send) 0 ⟨users.length, 0, 0, 0, 0⟩
      ⟨users.length, 0, 0, 0, 0⟩ hbroke
    have hlen : ((List.range users.length).map send).length = users.length := by simp
    omega

/-- Witness for C5: an uncancelled 2-recipient run emits the terminal edit
exactly once and processes the full snapshot. -/
theorem terminal_edit_unconditional_witness :
    ((handle_broadcast_message ⟨some true, none, none, none⟩ 1524473035 .text
        [⟨7, "u", "f", "l", "d", [1]⟩, ⟨8, "v", "f", "l", "d", [1]⟩]
        (fun _ => .ok) (fun _ => false) [] "t").events.count
      (RunEvent.finalEdit 2 false) = 1) ∧
    ((handle_broadcast_message ⟨some true, none, none, none⟩ 1524473035 .text
        [⟨7, "u", "f", "l", "d", [1]⟩, ⟨8, "v", "f", "l", "d", [1]⟩]
        (fun _ => .ok) (fun _ => false) [] "t").loop.processed = 2) :=
  ⟨(terminal_edit_unconditional ⟨some true, none, none, none⟩ 1524473035 .text
      [⟨7, "u", "f", "l", "d", [1]⟩, ⟨8, "v", "f", "l", "d", [1]⟩]
      (fun _ => .ok) (fun _ => false) [] "t" (by decide) (by decide) (by decide)).1,
   (terminal_edit_unconditional ⟨some true, none, none, none⟩ 1524473035 .text
      [⟨7, "u", "f", "l", "d", [1]⟩, ⟨8, "v", "f", "l", "d", [1]⟩]
      (fun _ => .ok) (fun _ => false) [] "t" (by decide) (by decide) (by decide)).2
      (by decide)⟩

set_option maxRecDepth 1000000 in
/-- C8 counterexample: in a 300-recipient run, the republish after index
170 reports percentage 56 — the IEEE-double truncation of 171/300·100 —
while floor(171·100/300) = 57, so "percentage = floor(processed/total×100)"
fails (and no republish with percentage 57 is attempted there). -/
theorem progress_percentage_counterexample :
    RunEvent.progressEdit 171 300 56 171 0 true ∈
      (handle_broadcast_message ⟨some true, none, none, none⟩ 1524473035 .text
        (List.replicate 300 ⟨7, "u", "f", "l", "d", [1]⟩) (fun _ => .ok)
        (fun _ => false) [] "t").events ∧
    RunEvent.progressEdit 171 300 ((171 * 100) / 300) 171 0 true ∉
      (handle_broadcast_message ⟨some true, none, none, none⟩ 1524473035 .text
        (List.replicate 300 ⟨7, "u", "f", "l", "d", [1]⟩) (fun _ => .ok)
        (fun _ => false) [] "t").events ∧
    (171 * 100) / 300 = (57 : Nat) := by
  decide

/-- C8 (amended): during a run the progress indicator is republished
exactly after the processed recipients at zero-based indices divisible by
10 or equal to n-1, never elsewhere; each republish reports processed
count, the successful count, the aggregate failure count, and as
percentage the IEEE-754 double truncation of (i+1)/total·100 (which can be
one below the exact floor, see the counterexample). -/
theorem progress_schedule (ud : UserData) (sender_id : Int)
    (content : MsgContent) (users : List UserRec) (send : Nat → SendResult)
    (extCancel : Nat → Bool) (broadcasts : List BroadcastRec) (now : String)
    (hA : ud.awaiting_broadcast.getD false = true) (hS : sender_id ∈ ADMIN_IDS)
    (hne : users ≠ []) :
    (handle_broadcast_message ud sender_id content users send extCancel
        broadcasts now).loop.events =
      specEdits users.length ((List.range users.length).map send)
        (handle_broadcast_message ud sender_id content users send extCancel
          broadcasts now).loop.processed := by
  rw [handle_eq_run ud sender_id content users send extCancel broadcasts now hA hS,
    run_broadcast_eq ud sender_id content users send extCancel broadcasts now hne]
  simp only []
  exact broadcast_loop_events_zero extCancel users.length
    ((List.range users.length).map send) ⟨users.length, 0, 0, 0, 0⟩

/-- Witness for C8: a 12-recipient run republishes after indices 0, 10 and
11, exactly as the schedule describes. -/
theorem progress_schedule_witness :
    (handle_broadcast_message ⟨some true, none, none, none⟩ 1524473035 .text
        (List.replicate 12 ⟨7, "u", "f", "l", "d", [1]⟩) (fun _ => .ok)
        (fun _ => false) [] "t").loop.events =
      specEdits 12 ((List.range 12).map (fun _ => SendResult.ok))
        (handle_broadcast_message ⟨some true, none, none, none⟩ 1524473035 .text
          (List.replicate 12 ⟨7, "u", "f", "l", "d", [1]⟩) (fun _ => .ok)
          (fun _ => false) [] "t").loop.processed := by
  have h := progress_schedule ⟨some true, none, none, none⟩ 1524473035 .text
    (List.replicate 12 ⟨7, "u", "f", "l", "d", [1]⟩) (fun _ => .ok)
    (fun _ => false) [] "t" (by decide) (by decide) (by decide)
  simpa using h

/-- C9: a cancellation left over from an earlier run never carries into a
later one: the handler's result does not depend on the incoming
`broadcast_cancelled` value (it is overwritten with `False` before the
loop), and when no fresh cancellation arrives before the first check, the
first recipient is processed. -/
theorem cancel_flag_reset (ud : UserData) (b : Option Bool) (sender_id : Int)
    (content : MsgContent) (users : List UserRec) (send : Nat → SendResult)
    (extCancel : Nat → Bool) (broadcasts : List BroadcastRec) (now : String)
    (hA : ud.awaiting_broadcast.getD false = true) (hS : sender_id ∈ ADMIN_IDS)
    (hne : users ≠ []) (h0 : extCancel 0 = false) :
    handle_broadcast_message { ud with broadcast_cancelled := b } sender_id
        content users send extCancel broadcasts now =
      handle_broadcast_message ud sender_id content users send extCancel
        broadcasts now ∧
    1 ≤ (handle_broadcast_message ud sender_id content users send extCancel
        broadcasts now).loop.processed := by
  have hA2 : ({ ud with broadcast_cancelled := b } :
      UserData).awaiting_broadcast.getD false = true := hA
  constructor
  · rw [handle_eq_run _ sender_id content users send extCancel broadcasts now hA2 hS,
      handle_eq_run ud sender_id content users send extCancel broadcasts now hA hS,
      run_broadcast_eq _ sender_id content users send extCancel broadcasts now hne,
      run_broadcast_eq ud sender_id content users send extCancel broadcasts now hne]
  · rw [handle_eq_run ud sender_id content users send extCancel broadcasts now hA hS,
      run_broadcast_eq ud sender_id content users send extCancel broadcasts now hne]
    simp only []
    have hlen : users.length ≠ 0 := by simpa [List.length_eq_zero] using hne
    have hne2 : (List.range users.length).map send ≠ [] := by
      intro hnil
      have hl : ((List.range users.length).map send).length = users.length := by simp
      rw [hnil] at hl
      simp at hl
      omega
    obtain ⟨o, rest, ho⟩ := List.exists_cons_of_ne_nil hne2
    rw [ho]
    simp only [broadcast_loop, h0, Bool.false_eq_true, if_false, Nat.zero_mod]
    have hge1 := broadcast_loop_processed_ge extCancel users.length rest 1
      (bumpCounts ⟨users.length, 0, 0, 0, 0⟩ o) (bumpCounts ⟨users.length, 0, 0, 0, 0⟩ o)
    have hge2 := broadcast_loop_processed_ge extCancel users.length rest 1
      (bumpCounts ⟨users.length, 0, 0, 0, 0⟩ o) ⟨users.length, 0, 0, 0, 0⟩
    by_cases hb : ((0 : Nat) % 10 == 0 || 0 + 1 == users.length)
    · simp only [hb, if_true]
      exact hge1
    · simp only [hb, Bool.false_eq_true, if_false]
      exact hge2

/-- Witness for C9: starting a run while the previous run's cancelled flag
is still set behaves exactly like starting it with no flag, and the first
recipient is processed. -/
theorem cancel_flag_reset_witness :
    (handle_broadcast_message ⟨some true, none, some true, none⟩ 1524473035 .text
        [⟨7, "u", "f", "l", "d", [1]⟩] (fun _ => .ok) (fun _ => false) [] "t" =
      handle_broadcast_message ⟨some true, none, none, none⟩ 1524473035 .text
        [⟨7, "u", "f", "l", "d", [1]⟩] (fun _ => .ok) (fun _ => false) [] "t") ∧
    1 ≤ (handle_broadcast_message ⟨some true, none, none, none⟩ 1524473035 .text
        [⟨7, "u", "f", "l", "d", [1]⟩] (fun _ => .ok) (fun _ => false)
        [] "t").loop.processed :=
  cancel_flag_reset ⟨some true, none, none, none⟩ (some true) 1524473035 .text
    [⟨7, "u", "f", "l", "d", [1]⟩] (fun _ => .ok) (fun _ => false) [] "t"
    (by decide) (by decide) (by decide) (by decide)
